import Mathlib

/-!
Verification of the realtime websocket call server (Twilio <-> OpenAI realtime
bridge with optional ElevenLabs synthesis).  The repository contains several
revisions of one implementation; the claims point into three of them:

* part_001 ("v10"): the sentence-segmentation / synthesis-queue pipeline and
  the barge-in handler;
* part_002 ("v11"): v10 plus a turn counter used to block unsolicited
  auto-responses;
* server.js ("v18"): the greeting / interest-notification revision.

Strings are modelled as lists of characters.  The JavaScript string methods
used by the code (trim, toLowerCase, includes, split on whitespace runs) are
embedded below.  Event handlers are modelled as step functions on explicit
per-call state records, processing one websocket event at a time; awaited
asynchronous work (an ElevenLabs synthesis) is modelled by a separate
completion event, which is the granularity of the underlying event loop.
-/

namespace RS

/-- Strings from the JavaScript source, as lists of characters. -/
abbrev Str := List Char

/-- Convert a Lean string literal to the character-list model. -/
def toL (s : String) : Str := s.toList

/-- The whitespace characters relevant to this code base (the JS methods
trim and split on whitespace accept further Unicode whitespace, none of
which occurs in the texts this server handles). -/
def isWS (c : Char) : Bool := c = ' ' || c = '\t' || c = '\n' || c = '\r'

/-- Left trim: drop leading whitespace. -/
def ltrim (l : Str) : Str := l.dropWhile isWS

/-- Right trim: drop trailing whitespace. -/
def rtrim (l : Str) : Str := (l.reverse.dropWhile isWS).reverse

/-- The JS String.prototype.trim method. -/
def trim (l : Str) : Str := rtrim (ltrim l)

/-- Lower-casing of one character: the restriction of the JS toLowerCase
method to the characters that occur in this repository (ASCII letters and
the upper-case accented vowels / cedilla of Brazilian Portuguese). -/
def lowerChar (c : Char) : Char :=
  if 'A' ≤ c ∧ c ≤ 'Z' then Char.ofNat (c.toNat + 32)
  else match c with
  | 'Á' => 'á' | 'À' => 'à' | 'Â' => 'â' | 'Ã' => 'ã' | 'É' => 'é' | 'Ê' => 'ê'
  | 'Í' => 'í' | 'Ó' => 'ó' | 'Ô' => 'ô' | 'Õ' => 'õ' | 'Ú' => 'ú' | 'Ç' => 'ç'
  | _ => c

/-- JS String.prototype.toLowerCase on the character-list model. -/
def lower (l : Str) : Str := l.map lowerChar

/-- Number of maximal runs of non-whitespace characters, the accumulator
recording whether the previous character belonged to a run. -/
def countRuns : Str → Bool → Nat
  | [], _ => 0
  | c :: rest, inRun =>
    if isWS c then countRuns rest false
    else (if inRun then 0 else 1) + countRuns rest true

/-- The length of the JS split of a string on whitespace runs, for the
already-trimmed arguments detectInterest applies it to: the empty string
splits to one empty piece, a trimmed non-empty string to its maximal
non-whitespace runs. -/
def jsWordCount (l : Str) : Nat := if l.isEmpty then 1 else countRuns l false

/-- Does the needle match a prefix of the haystack? -/
def matchesAt : Str → Str → Bool
  | [], _ => true
  | _ :: _, [] => false
  | a :: as, b :: bs => a = b && matchesAt as bs

/-- The JS String.prototype.includes method: does the needle occur as a
contiguous substring of the haystack? -/
def includes : Str → Str → Bool
  | needle, [] => needle.isEmpty
  | needle, c :: rest => matchesAt needle (c :: rest) || includes needle rest

/-- The terminal punctuation recognised by the sentence segmenter. -/
def isTerm (c : Char) : Bool := c = '.' || c = '!' || c = '?'

/-- The regex match of part_001 line 266: the buffer is scanned for a first
block of non-terminal characters followed by one terminal character; the
match requires at least one non-terminal character before the terminator.
Returns the trimmed matched sentence and the trimmed rest of the buffer. -/
def splitFirstSentence (buf : Str) : Option (Str × Str) :=
  let pre := buf.takeWhile (fun c => !isTerm c)
  match buf.dropWhile (fun c => !isTerm c) with
  | [] => none
  | t :: rs => if pre.isEmpty then none else some (trim (pre ++ [t]), trim rs)

/-- The sentence-segmenter append of part_001 lines 262-282, as the pure
function (buffer, delta) -> (emitted sentences, new buffer): the delta is
appended to the buffer, then the single regex match is attempted; on a
match the (trimmed) sentence is emitted when non-empty and the (trimmed)
remainder is retained — except that when the emitted sentence contains a
question mark the handler cancels further generation and clears the buffer
(lines 275-279), discarding the remainder.  With no match the whole buffer
is retained. -/
def appendDelta (buffer delta : Str) : List Str × Str :=
  match splitFirstSentence (buffer ++ delta) with
  | none => ([], buffer ++ delta)
  | some (sent, rest) =>
    if sent.isEmpty then ([], rest)
    else if includes [ '?' ] sent then ([sent], [])
    else ([sent], rest)

/-- Modelled from the spec: "append(deltaText) ... returns zero or more
complete sentences ... in emission order, retaining any trailing incomplete
fragment".  All complete sentences of the buffer are extracted by repeated
first-sentence extraction (fuel-bounded by the buffer length, which the
extraction strictly decreases). -/
def specExtractAll : Nat → Str → List Str × Str
  | 0, buf => ([], buf)
  | n + 1, buf =>
    match splitFirstSentence buf with
    | none => ([], buf)
    | some (sent, rest) =>
      let (ss, r) := specExtractAll n rest
      ((if sent.isEmpty then [] else [sent]) ++ ss, r)

/-- Modelled from the spec: the append of the Sentence Segmenter as the
specification words it, returning all complete sentences of the buffer. -/
def specAppendAll (buffer delta : Str) : List Str × Str :=
  specExtractAll (buffer ++ delta).length (buffer ++ delta)

/-! ### The interest classifier (server.js v18, lines 33-87) -/

/-- The positive interest keywords of server.js lines 33-53. -/
def POSITIVE_INTEREST_KEYWORDS : List Str :=
  [toL "agendar", toL "marcar reunião", toL "marcar uma reunião", toL "agende", toL "marque",
   toL "vamos marcar", toL "vamos agendar",
   toL "tenho interesse", toL "me interessa",
   toL "quero saber mais", toL "saber mais", toL "mais informações", toL "mais informacoes",
   toL "me conte mais", toL "como funciona",
   toL "quero conhecer", toL "quero entender",
   toL "quero contratar", toL "quero comprar", toL "quanto custa",
   toL "qual o valor", toL "qual o preço", toL "qual o preco",
   toL "proposta", toL "orçamento", toL "orcamento",
   toL "meu email", toL "meu telefone", toL "meu whatsapp",
   toL "manda no whatsapp", toL "envia por email",
   toL "pode ligar de volta", toL "me liga depois",
   toL "fechado", toL "vamos lá", toL "vamos la", toL "bora",
   toL "quero sim", toL "com certeza quero"]

/-- The negative keywords of server.js lines 56-66. -/
def NEGATIVE_KEYWORDS : List Str :=
  [toL "não tenho interesse", toL "nao tenho interesse",
   toL "não quero", toL "nao quero",
   toL "não preciso", toL "nao preciso",
   toL "não obrigado", toL "nao obrigado",
   toL "desculpa", toL "sem interesse",
   toL "tô ocupado", toL "to ocupado",
   toL "agora não", toL "agora nao",
   toL "outro momento", toL "não é o momento",
   toL "não me interessa", toL "nao me interessa"]

/-- The result record of detectInterest. -/
structure InterestResult where
  interested : Bool
  signal : Option Str
  deriving DecidableEq, Repr

/-- detectInterest of server.js lines 68-87: lower-case and trim the text;
fewer than three whitespace-separated words is never classified; a negative
keyword occurring as a substring short-circuits to not-interested; otherwise
the first positive keyword occurring as a substring is the signal. -/
def detectInterest (text : Str) : InterestResult :=
  let lowerText := trim (lower text)
  if jsWordCount lowerText < 3 then ⟨false, none⟩
  else if NEGATIVE_KEYWORDS.any (fun neg => includes neg lowerText) then ⟨false, none⟩
  else
    match POSITIVE_INTEREST_KEYWORDS.find? (fun kw => includes kw lowerText) with
    | some kw => ⟨true, some kw⟩
    | none => ⟨false, none⟩

/-! ### Transcript entries

The code pushes objects with role, text and an ISO timestamp onto
sessionData.transcription; wall-clock time is not modelled, so an entry is
its role and text. -/

/-- The speaker of a transcript entry. -/
inductive Role where
  | user
  | assistant
  deriving DecidableEq, Repr

/-- One transcript entry (role and text; the timestamp is not modelled). -/
structure Entry where
  role : Role
  text : Str
  deriving DecidableEq, Repr

/-! ### The v10 call machine (part_001, connectToOpenAI message handler)

The per-call mutable variables of part_001 lines 128-134 together with the
transcription array, plus three history fields (inFlight, started, enqueued)
that record what the synthesis consumer is doing; they are written exactly
where the code starts, finishes and enqueues a synthesis and are read by no
step, so they do not influence the behaviour.

The asynchronous processSentenceQueue consumer suspends exactly while one
ElevenLabs request is awaited; the suspension is modelled by the event
Ev10.ttsFinished, carrying the HTTP success flag and the audio chunks the
provider streamed (the code forwards each chunk as one outbound media frame;
on an HTTP error it returns before reading any chunk).  Whitespace-only
sentences never enter the queue (the queueSentence guard), so the code path
that shifts a blank sentence without awaiting is unreachable and tryStart
puts the shifted sentence in flight unconditionally.  The twilioWs readyState
guard is not modelled (the telephony socket is taken as open). -/

/-- The per-call state of the v10 handler. -/
structure V10State where
  waitingForUserResponse : Bool
  userHasSpoken : Bool
  pendingTextResponse : Str
  sentenceBuffer : Str
  isProcessingSentence : Bool
  sentenceQueue : List Str
  isAISpeaking : Bool
  transcription : List Entry
  /-- History: the sentence currently being synthesized, if any. -/
  inFlight : List Str
  /-- History: every sentence whose synthesis was started, in start order. -/
  started : List Str
  /-- History: every sentence ever enqueued, in enqueue order. -/
  enqueued : List Str
  deriving DecidableEq, Repr

/-- The initial v10 state (part_001 lines 128-134). -/
def initV10 : V10State :=
  ⟨false, false, [], [], false, [], false, [], [], [], []⟩

/-- The inbound events the v10 message handler dispatches on, plus the
completion of an awaited ElevenLabs synthesis. -/
inductive Ev10 where
  | audioDelta (d : Str)
  | textDelta (d : Str)
  | textDone
  | speechStarted
  | speechStopped
  | audioDone
  | responseDone
  | responseCreated
  | inputTranscribed (t : Str)
  | aiTranscriptDone (t : Str)
  | ttsFinished (ok : Bool) (chunks : List Str)
  deriving DecidableEq, Repr

/-- The messages the v10 handler sends: response.cancel to the backend,
clear and media frames to the telephony socket. -/
inductive Out10 where
  | responseCancel
  | clearTwilio
  | mediaTwilio (payload : Str)
  deriving DecidableEq, Repr

/-- The entry of processSentenceQueue up to its first suspension point
(part_001 lines 136-144): return if already processing or the queue is
empty, otherwise mark processing, mark the AI speaking, shift the first
sentence and start its synthesis. -/
def tryStart (s : V10State) : V10State :=
  if s.isProcessingSentence || s.sentenceQueue.isEmpty then s
  else match s.sentenceQueue with
    | [] => s
    | q :: qs =>
      { s with isProcessingSentence := true, isAISpeaking := true,
               sentenceQueue := qs, inFlight := [q], started := s.started ++ [q] }

/-- queueSentence (part_001 lines 158-163): push the sentence when it is
non-empty and not whitespace-only, and kick the consumer. -/
def queueSentence (sent : Str) (s : V10State) : V10State :=
  if !sent.isEmpty && !(trim sent).isEmpty then
    tryStart { s with sentenceQueue := s.sentenceQueue ++ [sent],
                      enqueued := s.enqueued ++ [sent] }
  else s

/-- The barge-in block of part_001 lines 307-322, run when speech starts
while the AI is speaking: discard the pending response text, the segmenter
buffer and the whole sentence queue, and mark the AI silent. -/
def bargeIn (s : V10State) : V10State :=
  { s with pendingTextResponse := [], sentenceBuffer := [],
           sentenceQueue := [], isAISpeaking := false }

/-- The state just before the barge-in check: a speech-started event always
records that the user has spoken and that the machine is no longer waiting. -/
def speechFlags (s : V10State) : V10State :=
  { s with userHasSpoken := true, waitingForUserResponse := false }

/-- The text-delta handler of part_001 lines 262-282: extend the segmenter
buffer and the pending-response text, attempt one sentence match, queue a
matched non-empty sentence, and on a sentence containing a question mark
cancel further generation and drop the rest of the buffer. -/
def v10TextDelta (d : Str) (s : V10State) : V10State × List Out10 :=
  match splitFirstSentence (s.sentenceBuffer ++ d) with
  | none =>
    ({ s with sentenceBuffer := s.sentenceBuffer ++ d,
              pendingTextResponse := s.pendingTextResponse ++ d }, [])
  | some (sent, rest) =>
    if !sent.isEmpty then
      if includes [ '?' ] sent then
        ({ queueSentence sent
             { s with sentenceBuffer := rest,
                      pendingTextResponse := s.pendingTextResponse ++ d }
           with sentenceBuffer := [] }, [.responseCancel])
      else
        (queueSentence sent
           { s with sentenceBuffer := rest,
                    pendingTextResponse := s.pendingTextResponse ++ d }, [])
    else
      ({ s with sentenceBuffer := rest,
                pendingTextResponse := s.pendingTextResponse ++ d }, [])

/-- The queue flush on response completion (part_001 lines 285-288): a
non-blank segmenter remainder is enqueued as a final sentence (queueSentence
does not touch the buffer itself, which the caller then clears). -/
def flushBuffer (s : V10State) : V10State :=
  if !(trim s.sentenceBuffer).isEmpty
  then queueSentence (trim s.sentenceBuffer) s else s

/-- The transcript flush on response completion (part_001 lines 290-299):
a non-blank accumulated response text is recorded as an assistant entry,
and the accumulator is cleared either way. -/
def flushPending (s : V10State) : V10State :=
  if !(trim s.pendingTextResponse).isEmpty then
    { s with transcription := s.transcription ++ [⟨Role.assistant, s.pendingTextResponse⟩],
             pendingTextResponse := [] }
  else { s with pendingTextResponse := [] }

/-- The text-done handler of part_001 lines 284-300: flush a non-blank
segmenter remainder into the queue, clear the buffer, record the full
response text as an assistant transcript entry when non-blank, and clear it. -/
def v10TextDone (s : V10State) : V10State :=
  flushPending { flushBuffer s with sentenceBuffer := [] }

/-- The continuation of processSentenceQueue after the awaited synthesis
returns (part_001 lines 147-156): unmark processing, then either start the
next queued sentence or, the queue being empty, mark the AI silent and wait
for the user. -/
def v10Finish (s : V10State) : V10State :=
  if !s.sentenceQueue.isEmpty then
    tryStart { s with isProcessingSentence := false, inFlight := [] }
  else { s with isProcessingSentence := false, inFlight := [],
                isAISpeaking := false, waitingForUserResponse := true }

/-- One step of the v10 message handler (part_001 lines 247-379), with
ue the useElevenLabs flag of the call. -/
def stepV10 (ue : Bool) (s : V10State) : Ev10 → V10State × List Out10
  | .audioDelta d =>
    if !d.isEmpty && !ue then ({ s with isAISpeaking := true }, [.mediaTwilio d])
    else (s, [])
  | .textDelta d =>
    if !d.isEmpty && ue then v10TextDelta d s else (s, [])
  | .textDone =>
    if ue then (v10TextDone s, []) else (s, [])
  | .speechStarted =>
    let s₁ := speechFlags s
    if s₁.isAISpeaking then (bargeIn s₁, [.responseCancel, .clearTwilio])
    else (s₁, [])
  | .speechStopped => (s, [])
  | .audioDone =>
    if !ue then ({ s with isAISpeaking := false, waitingForUserResponse := true }, [])
    else (s, [])
  | .responseDone => ({ s with isAISpeaking := false }, [])
  | .responseCreated =>
    if s.waitingForUserResponse && !s.userHasSpoken then (s, [.responseCancel])
    else (s, [])
  | .inputTranscribed t =>
    if !(trim t).isEmpty then
      ({ s with transcription := s.transcription ++ [⟨Role.user, t⟩],
                userHasSpoken := true, waitingForUserResponse := false }, [])
    else (s, [])
  | .aiTranscriptDone t =>
    if !ue && !(trim t).isEmpty then
      ({ s with transcription := s.transcription ++ [⟨Role.assistant, t⟩] }, [])
    else (s, [])
  | .ttsFinished ok chunks =>
    if s.isProcessingSentence then
      (v10Finish s, if ok then chunks.map Out10.mediaTwilio else [])
    else (s, [])

/-- Run the v10 handler from a given state over a list of events,
concatenating the emitted messages in order. -/
def runFromV10 (ue : Bool) (s : V10State) : List Ev10 → V10State × List Out10
  | [] => (s, [])
  | e :: evs =>
    ((runFromV10 ue (stepV10 ue s e).1 evs).1,
     (stepV10 ue s e).2 ++ (runFromV10 ue (stepV10 ue s e).1 evs).2)

/-- Run the v10 handler from the initial state. -/
def runV10 (ue : Bool) (evs : List Ev10) : V10State × List Out10 :=
  runFromV10 ue initV10 evs

/-! ### The v11 call machine (part_002, connectToOpenAI message handler)

v11 is v10 plus a turn counter: the counter is incremented when a question
sentence stops generation, when a text response completes, and when an
audio response completes; the response-created blocker additionally requires
at least one completed turn and otherwise resets the user-has-spoken flag.
The events and outputs are the same protocol as v10, so Ev10 and Out10 are
reused (part_002 has no speech-stopped handler, so that event is a no-op). -/

/-- The per-call state of the v11 handler (part_002 lines 128-135). -/
structure V11State where
  waitingForUserResponse : Bool
  userHasSpoken : Bool
  pendingTextResponse : Str
  sentenceBuffer : Str
  isProcessingSentence : Bool
  sentenceQueue : List Str
  isAISpeaking : Bool
  turnCount : Nat
  transcription : List Entry
  /-- History: the sentence currently being synthesized, if any. -/
  inFlight : List Str
  /-- History: every sentence whose synthesis was started, in start order. -/
  started : List Str
  /-- History: every sentence ever enqueued, in enqueue order. -/
  enqueued : List Str
  deriving DecidableEq, Repr

/-- The initial v11 state. -/
def initV11 : V11State :=
  ⟨false, false, [], [], false, [], false, 0, [], [], [], []⟩

/-- processSentenceQueue entry for v11 (part_002 lines 137-145), identical
to the v10 consumer. -/
def tryStartV11 (s : V11State) : V11State :=
  if s.isProcessingSentence || s.sentenceQueue.isEmpty then s
  else match s.sentenceQueue with
    | [] => s
    | q :: qs =>
      { s with isProcessingSentence := true, isAISpeaking := true,
               sentenceQueue := qs, inFlight := [q], started := s.started ++ [q] }

/-- queueSentence for v11 (part_002 lines 159-164). -/
def queueSentenceV11 (sent : Str) (s : V11State) : V11State :=
  if !sent.isEmpty && !(trim sent).isEmpty then
    tryStartV11 { s with sentenceQueue := s.sentenceQueue ++ [sent],
                         enqueued := s.enqueued ++ [sent] }
  else s

/-- The v11 text-delta handler (part_002 lines 261-282): as in v10, but a
question sentence also counts as a completed turn. -/
def v11TextDelta (d : Str) (s : V11State) : V11State × List Out10 :=
  let s₁ := { s with sentenceBuffer := s.sentenceBuffer ++ d,
                     pendingTextResponse := s.pendingTextResponse ++ d }
  match splitFirstSentence s₁.sentenceBuffer with
  | none => (s₁, [])
  | some (sent, rest) =>
    let s₂ := { s₁ with sentenceBuffer := rest }
    if !sent.isEmpty then
      let s₃ := queueSentenceV11 sent s₂
      if includes [ '?' ] sent then
        ({ s₃ with sentenceBuffer := [], turnCount := s₃.turnCount + 1 }, [.responseCancel])
      else (s₃, [])
    else (s₂, [])

/-- The v11 text-done handler (part_002 lines 284-300): as in v10, and the
completed response counts as a turn. -/
def v11TextDone (s : V11State) : V11State :=
  let s₁ := if !(trim s.sentenceBuffer).isEmpty
            then queueSentenceV11 (trim s.sentenceBuffer) s else s
  let s₂ := { s₁ with sentenceBuffer := [] }
  let s₃ := if !(trim s₂.pendingTextResponse).isEmpty
            then { s₂ with transcription :=
                     s₂.transcription ++ [⟨Role.assistant, s₂.pendingTextResponse⟩] }
            else s₂
  { s₃ with pendingTextResponse := [], turnCount := s₃.turnCount + 1 }

/-- The v11 barge-in block (part_002 lines 307-317). -/
def bargeInV11 (s : V11State) : V11State :=
  { s with pendingTextResponse := [], sentenceBuffer := [],
           sentenceQueue := [], isAISpeaking := false }

/-- The v11 synthesis-completion continuation (part_002 lines 148-157). -/
def v11Finish (s : V11State) : V11State :=
  let s₁ := { s with isProcessingSentence := false, inFlight := [] }
  if !s₁.sentenceQueue.isEmpty then tryStartV11 s₁
  else { s₁ with isAISpeaking := false, waitingForUserResponse := true }

/-- One step of the v11 message handler (part_002 lines 246-370). -/
def stepV11 (ue : Bool) (s : V11State) : Ev10 → V11State × List Out10
  | .audioDelta d =>
    if !d.isEmpty && !ue then ({ s with isAISpeaking := true }, [.mediaTwilio d])
    else (s, [])
  | .textDelta d =>
    if !d.isEmpty && ue then v11TextDelta d s else (s, [])
  | .textDone =>
    if ue then (v11TextDone s, []) else (s, [])
  | .speechStarted =>
    let s₁ := { s with userHasSpoken := true, waitingForUserResponse := false }
    if s₁.isAISpeaking then (bargeInV11 s₁, [.responseCancel, .clearTwilio])
    else (s₁, [])
  | .speechStopped => (s, [])
  | .audioDone =>
    if !ue then
      ({ s with isAISpeaking := false, waitingForUserResponse := true,
                turnCount := s.turnCount + 1 }, [])
    else (s, [])
  | .responseDone => ({ s with isAISpeaking := false }, [])
  | .responseCreated =>
    if s.waitingForUserResponse && !s.userHasSpoken && decide (0 < s.turnCount) then
      (s, [.responseCancel])
    else ({ s with userHasSpoken := false }, [])
  | .inputTranscribed t =>
    if !(trim t).isEmpty then
      ({ s with transcription := s.transcription ++ [⟨Role.user, t⟩],
                userHasSpoken := true, waitingForUserResponse := false }, [])
    else (s, [])
  | .aiTranscriptDone t =>
    if !ue && !(trim t).isEmpty then
      ({ s with transcription := s.transcription ++ [⟨Role.assistant, t⟩] }, [])
    else (s, [])
  | .ttsFinished ok chunks =>
    if s.isProcessingSentence then
      (v11Finish s, if ok then chunks.map Out10.mediaTwilio else [])
    else (s, [])

/-! ### The v18 call machine (server.js, connectToOpenAI message handler)

v18 has no sentence queue: the text deltas of a response accumulate in
fullResponse, and on text-done the whole trimmed response is synthesized in
one awaited call (the isProcessing flag is set just before the await and
cleared right after it, so at every step boundary of this event-granularity
model it is false; a blank response is neither recorded nor synthesized).
The greeting is requested exactly on a session-updated acknowledgment when
none has been requested yet, and the first response-done re-arms speech
detection; interest is checked per final user utterance, at most once per
call and only from the second utterance on. -/

/-- The per-call state of the v18 handler (server.js lines 236-242). -/
structure V18State where
  greetingSent : Bool
  greetingResponseDone : Bool
  fullResponse : Str
  interestNotified : Bool
  userMessageCount : Nat
  transcription : List Entry
  deriving DecidableEq, Repr

/-- The initial v18 state. -/
def initV18 : V18State := ⟨false, false, [], false, 0, []⟩

/-- The backend events the v18 message handler dispatches on. -/
inductive Ev18 where
  | sessionUpdated
  | responseDone
  | audioDelta (d : Str)
  | textDelta (d : Str)
  | textDone
  | audioTranscriptDone (t : Str)
  | speechStarted
  | inputTranscribed (t : Str)
  | errorEvent
  deriving DecidableEq, Repr

/-- The messages the v18 handler sends: the greeting response.create, the
session.update that re-arms speech detection, media and clear frames to the
telephony socket, one ElevenLabs synthesis request per completed response,
and the one-shot interest notification carrying the matched signal. -/
inductive Out18 where
  | responseCreateGreeting
  | sessionUpdateVad
  | mediaTwilio (payload : Str)
  | clearTwilio
  | ttsRequest (text : Str)
  | interestNote (signal : Option Str)
  deriving DecidableEq, Repr

/-- One step of the v18 message handler (server.js lines 307-408), with
ue the useElevenLabs flag. -/
def stepV18 (ue : Bool) (s : V18State) : Ev18 → V18State × List Out18
  | .sessionUpdated =>
    if !s.greetingSent then ({ s with greetingSent := true }, [.responseCreateGreeting])
    else (s, [])
  | .responseDone =>
    if !s.greetingResponseDone then
      ({ s with greetingResponseDone := true }, [.sessionUpdateVad])
    else (s, [])
  | .audioDelta d =>
    if !d.isEmpty && !ue then (s, [.mediaTwilio d]) else (s, [])
  | .textDelta d =>
    if !d.isEmpty && ue then ({ s with fullResponse := s.fullResponse ++ d }, [])
    else (s, [])
  | .textDone =>
    if ue then
      let textToSpeak := trim s.fullResponse
      let s₁ := { s with fullResponse := [] }
      if !textToSpeak.isEmpty then
        ({ s₁ with transcription := s₁.transcription ++ [⟨Role.assistant, textToSpeak⟩] },
         [.ttsRequest textToSpeak])
      else (s₁, [])
    else (s, [])
  | .audioTranscriptDone t =>
    if !ue && !(trim t).isEmpty then
      ({ s with transcription := s.transcription ++ [⟨Role.assistant, t⟩] }, [])
    else (s, [])
  | .speechStarted => (s, [.clearTwilio])
  | .inputTranscribed t =>
    if !(trim t).isEmpty then
      let n := s.userMessageCount + 1
      let s₁ := { s with userMessageCount := n,
                         transcription := s.transcription ++ [⟨Role.user, t⟩] }
      if !s₁.interestNotified && decide (2 ≤ n) then
        let r := detectInterest t
        if r.interested then
          ({ s₁ with interestNotified := true }, [.interestNote r.signal])
        else (s₁, [])
      else (s₁, [])
    else (s, [])
  | .errorEvent => (s, [])

/-- Run the v18 handler from a given state. -/
def runFromV18 (ue : Bool) (s : V18State) : List Ev18 → V18State × List Out18
  | [] => (s, [])
  | e :: evs =>
    let p := stepV18 ue s e
    let r := runFromV18 ue p.1 evs
    (r.1, p.2 ++ r.2)

/-- Run the v18 handler from the initial state. -/
def runV18 (ue : Bool) (evs : List Ev18) : V18State × List Out18 :=
  runFromV18 ue initV18 evs

/-- Is an event the session-updated acknowledgment? -/
def isSessionUpdated : Ev18 → Bool
  | .sessionUpdated => true
  | _ => false

/-- Is an output the greeting response.create request? -/
def isGreeting : Out18 → Bool
  | .responseCreateGreeting => true
  | _ => false

/-- Is an output the interest notification? -/
def isInterestNote : Out18 → Bool
  | .interestNote _ => true
  | _ => false

/-! ### Basic facts about trimming -/

theorem dropWhile_length_le (p : Char → Bool) (l : Str) :
    (l.dropWhile p).length ≤ l.length := by
  induction l with
  | nil => simp
  | cons a t ih =>
    rw [List.dropWhile_cons]
    by_cases h : p a = true
    · rw [if_pos h]; exact Nat.le_succ_of_le ih
    · rw [if_neg h]

theorem dropWhile_head?_not (p : Char → Bool) (l : Str) (a : Char)
    (h : (l.dropWhile p).head? = some a) : p a = false := by
  induction l with
  | nil => simp [List.dropWhile] at h
  | cons b bs ih =>
    rw [List.dropWhile_cons] at h
    by_cases hb : p b = true
    · rw [if_pos hb] at h
      exact ih h
    · rw [if_neg hb] at h
      simp only [List.head?_cons, Option.some.injEq] at h
      rw [← h]
      exact Bool.eq_false_iff.mpr hb

theorem dropWhile_dropWhile (p : Char → Bool) (l : Str) :
    (l.dropWhile p).dropWhile p = l.dropWhile p := by
  cases h : l.dropWhile p with
  | nil => simp
  | cons a t =>
    have ha : p a = false := dropWhile_head?_not p l a (by rw [h]; rfl)
    rw [List.dropWhile_cons, ha]
    simp

theorem ltrim_ltrim (l : Str) : ltrim (ltrim l) = ltrim l :=
  dropWhile_dropWhile isWS l

theorem ltrim_cons_not_ws (a : Char) (l : Str) (h : isWS a = false) :
    ltrim (a :: l) = a :: l := by
  simp [ltrim, List.dropWhile_cons, h]

theorem dropWhile_concat_ex (p : Char → Bool) (x : Str) (t : Char)
    (h : p t = false) : ∃ w, (x ++ [t]).dropWhile p = w ++ [t] := by
  induction x with
  | nil => exact ⟨[], by simp [List.dropWhile_cons, h]⟩
  | cons a x ih =>
    by_cases ha : p a
    · obtain ⟨w, hw⟩ := ih
      exact ⟨w, by simp [List.dropWhile_cons, ha, hw]⟩
    · exact ⟨a :: x, by simp [List.dropWhile_cons, ha]⟩

theorem rtrim_concat (l : Str) (t : Char) (h : isWS t = false) :
    rtrim (l ++ [t]) = l ++ [t] := by
  simp [rtrim, List.reverse_append, List.dropWhile_cons, h]

theorem rtrim_rtrim (y : Str) : rtrim (rtrim y) = rtrim y := by
  simp [rtrim, List.reverse_reverse, dropWhile_dropWhile]

theorem ltrim_rtrim_of_ltrim (z : Str) (hz : ltrim z = z) :
    ltrim (rtrim z) = rtrim z := by
  cases z with
  | nil => simp [rtrim, ltrim, List.dropWhile]
  | cons a t =>
    have ha : isWS a = false := by
      by_contra hc
      have ha' : isWS a = true := by
        cases h : isWS a
        · exact absurd h hc
        · rfl
      have : ltrim (a :: t) = ltrim t := by simp [ltrim, List.dropWhile_cons, ha']
      rw [hz] at this
      have hlen : (ltrim t).length ≤ t.length := dropWhile_length_le ..
      rw [← this] at hlen
      simp at hlen
    obtain ⟨w, hw⟩ := dropWhile_concat_ex isWS t.reverse a ha
    have : rtrim (a :: t) = a :: w.reverse := by
      simp only [rtrim, List.reverse_cons, hw, List.reverse_append, List.reverse_cons,
        List.reverse_nil, List.nil_append]
      rfl
    rw [this]
    exact ltrim_cons_not_ws a w.reverse ha

theorem trim_idem (l : Str) : trim (trim l) = trim l := by
  unfold trim
  rw [ltrim_rtrim_of_ltrim (ltrim l) (ltrim_ltrim l), rtrim_rtrim]

theorem trim_concat_term (l : Str) (t : Char) (h : isWS t = false) :
    ∃ x, trim (l ++ [t]) = x ++ [t] := by
  obtain ⟨w, hw⟩ := dropWhile_concat_ex isWS l t h
  exact ⟨w, by rw [trim, ltrim, hw, rtrim_concat w t h]⟩

theorem mem_ltrim (c : Char) (l : Str) (h : c ∈ l) (hc : isWS c = false) :
    c ∈ ltrim l := by
  induction l with
  | nil => cases h
  | cons a t ih =>
    by_cases ha : isWS a
    · rcases List.mem_cons.mp h with rfl | h'
      · rw [ha] at hc; cases hc
      · rw [ltrim, List.dropWhile_cons, ha]
        exact ih h'
    · rw [ltrim, List.dropWhile_cons]
      simp only [ha, Bool.false_eq_true, if_false]
      exact h

theorem mem_rtrim (c : Char) (l : Str) (h : c ∈ l) (hc : isWS c = false) :
    c ∈ rtrim l := by
  have h1 : c ∈ l.reverse := List.mem_reverse.mpr h
  have h2 : c ∈ ltrim l.reverse := mem_ltrim c l.reverse h1 hc
  rw [rtrim, ← ltrim]
  exact List.mem_reverse.mpr h2

theorem mem_trim (c : Char) (l : Str) (h : c ∈ l) (hc : isWS c = false) :
    c ∈ trim l :=
  mem_rtrim c (ltrim l) (mem_ltrim c l h hc) hc

theorem trim_ne_nil_of_mem (c : Char) (l : Str) (h : c ∈ l)
    (hc : isWS c = false) : trim l ≠ [] :=
  List.ne_nil_of_mem (mem_trim c l h hc)

/-- The three sentence terminators are not whitespace. -/
theorem isTerm_not_ws (c : Char) (h : isTerm c = true) : isWS c = false := by
  have hc : (c = '.' ∨ c = '!') ∨ c = '?' := by
    simpa [isTerm, decide_eq_true_eq] using h
  rcases hc with (rfl | rfl) | rfl <;> decide

/-- Characterization of a successful first-sentence match: the buffer
decomposes as a non-empty terminator-free block, the terminator, and the
remainder; the emitted sentence and retained buffer are their trims. -/
theorem splitFirstSentence_eq_some (buf sent rest : Str)
    (h : splitFirstSentence buf = some (sent, rest)) :
    ∃ pre t rs, buf = pre ++ t :: rs ∧ isTerm t = true ∧
      sent = trim (pre ++ [t]) ∧ rest = trim rs := by
  unfold splitFirstSentence at h
  cases hd : buf.dropWhile (fun c => !isTerm c) with
  | nil =>
    rw [hd] at h
    exact Option.noConfusion h
  | cons t rs =>
    rw [hd] at h
    dsimp only at h
    by_cases hp : (buf.takeWhile (fun c => !isTerm c)).isEmpty = true
    · rw [if_pos hp] at h
      exact Option.noConfusion h
    · rw [if_neg hp] at h
      have ht : isTerm t = true := by
        have hh := dropWhile_head?_not (fun c => !isTerm c) buf t (by rw [hd]; rfl)
        simpa using hh
      have h2 := Option.some.inj h
      refine ⟨buf.takeWhile (fun c => !isTerm c), t, rs, ?_, ht, ?_, ?_⟩
      · conv_lhs => rw [← List.takeWhile_append_dropWhile (p := fun c => !isTerm c) (l := buf), hd]
      · exact (congrArg Prod.fst h2).symm
      · exact (congrArg Prod.snd h2).symm

/-! ### C4: the sentence segmenter -/

/-- Claim C4 counterexample: the claim says append returns all complete
sentences present in the buffer, zero or more of them, retaining any
trailing incomplete fragment.  On the single delta "One. Two." the code
performs one regex match and returns only the first sentence "One.",
retaining the complete sentence "Two." in the buffer, whereas the spec-side
extraction of all complete sentences returns both; and on the delta
"Tudo bem? Sim." the matched sentence contains a question mark, so the
handler clears the buffer and the trailing fragment " Sim." is discarded,
not retained. -/
theorem c4_counterexample :
    (appendDelta [] (toL "One. Two.")).1 = [toL "One."]
    ∧ (appendDelta [] (toL "One. Two.")).2 = toL "Two."
    ∧ (specAppendAll [] (toL "One. Two.")).1 = [toL "One.", toL "Two."]
    ∧ (appendDelta [] (toL "One. Two.")).1 ≠ (specAppendAll [] (toL "One. Two.")).1
    ∧ (appendDelta [] (toL "Tudo bem? Sim.")).1 = [toL "Tudo bem?"]
    ∧ (appendDelta [] (toL "Tudo bem? Sim.")).2 = [] := by
  refine ⟨by decide, by decide, by decide, by decide, by decide, by decide⟩

/-- Claim C4, amended: append returns at most one complete sentence — the
first complete sentence of the buffer, if any — ending in one of the three
terminators, trimmed and non-empty; when that sentence contains a question
mark the rest of the buffer is discarded (generation is being cancelled),
and otherwise the remaining fragment (which may itself still contain
complete sentences) is retained; the two concrete examples of the claim
hold as stated. -/
theorem c4_segmenter_amended :
    (∀ buffer delta sent, sent ∈ (appendDelta buffer delta).1 →
        sent ≠ [] ∧ trim sent = sent ∧ ∃ c, sent.getLast? = some c ∧ isTerm c = true)
  ∧ (∀ buffer delta, (appendDelta buffer delta).1.length ≤ 1)
  ∧ (∀ buffer delta sent, sent ∈ (appendDelta buffer delta).1 →
        includes [ '?' ] sent = true → (appendDelta buffer delta).2 = [])
  ∧ appendDelta [] (toL "Hello there. How are") = ([toL "Hello there."], toL "How are")
  ∧ appendDelta (toL "How are") (toL " you?") = ([toL "How are you?"], []) := by
  refine ⟨?_, ?_, ?_, by decide, by decide⟩
  · intro buffer delta sent hmem
    unfold appendDelta at hmem
    cases hs : splitFirstSentence (buffer ++ delta) with
    | none => rw [hs] at hmem; cases hmem
    | some p =>
      obtain ⟨s', rest⟩ := p
      rw [hs] at hmem
      dsimp only at hmem
      by_cases he : s'.isEmpty = true
      · rw [if_pos he] at hmem; cases hmem
      · rw [if_neg he] at hmem
        have hsent : sent = s' := by
          by_cases hq : includes [ '?' ] s' = true
          · rw [if_pos hq] at hmem
            cases hmem with
            | head => rfl
            | tail _ hm => cases hm
          · rw [if_neg hq] at hmem
            cases hmem with
            | head => rfl
            | tail _ hm => cases hm
        subst hsent
        obtain ⟨pre, t, rs, _, ht, hsent', _⟩ :=
          splitFirstSentence_eq_some (buffer ++ delta) sent rest hs
        refine ⟨?_, ?_, ?_⟩
        · intro hn
          rw [hn] at he
          exact he rfl
        · rw [hsent', trim_idem]
        · obtain ⟨x, hx⟩ := trim_concat_term pre t (isTerm_not_ws t ht)
          exact ⟨t, by rw [hsent', hx, List.getLast?_concat], ht⟩
  · intro buffer delta
    unfold appendDelta
    cases hs : splitFirstSentence (buffer ++ delta) with
    | none => simp
    | some p =>
      obtain ⟨s', rest⟩ := p
      dsimp only
      by_cases he : s'.isEmpty = true
      · rw [if_pos he]; simp
      · rw [if_neg he]
        by_cases hq : includes [ '?' ] s' = true
        · rw [if_pos hq]; simp
        · rw [if_neg hq]; simp
  · intro buffer delta sent hmem hq
    unfold appendDelta at hmem ⊢
    cases hs : splitFirstSentence (buffer ++ delta) with
    | none => rw [hs] at hmem; cases hmem
    | some p =>
      obtain ⟨s', rest⟩ := p
      rw [hs] at hmem
      dsimp only at hmem ⊢
      by_cases he : s'.isEmpty = true
      · rw [if_pos he] at hmem; cases hmem
      · rw [if_neg he] at hmem ⊢
        by_cases hqq : includes [ '?' ] s' = true
        · rw [if_pos hqq]
        · rw [if_neg hqq] at hmem
          have hsent : sent = s' := by
            cases hmem with
            | head => rfl
            | tail _ hm => cases hm
          subst hsent
          exact absurd hq hqq

/-- Claim C4 amended witness: the first quoted example yields a trimmed,
terminator-ended sentence, and a question sentence makes the step discard
the rest of the buffer. -/
theorem c4_segmenter_amended_witness :
    toL "Hello there." ∈ (appendDelta [] (toL "Hello there. How are")).1
    ∧ (toL "Hello there." ≠ [] ∧ trim (toL "Hello there.") = toL "Hello there."
       ∧ ∃ c, (toL "Hello there.").getLast? = some c ∧ isTerm c = true)
    ∧ (appendDelta [] (toL "Tudo bem? Sim.")).2 = [] :=
  ⟨by decide, c4_segmenter_amended.1 [] (toL "Hello there. How are") _ (by decide),
   c4_segmenter_amended.2.2.1 [] (toL "Tudo bem? Sim.") (toL "Tudo bem?")
     (by decide) (by decide)⟩

/-! ### C7 and C8: the interest classifier -/

theorem find?_first_match (p : Str → Bool) (l₁ l₂ : List Str) (kw : Str)
    (h₁ : ∀ k ∈ l₁, p k = false) (h₂ : p kw = true) :
    List.find? p (l₁ ++ kw :: l₂) = some kw := by
  induction l₁ with
  | nil => simp [List.find?, h₂]
  | cons a l ih =>
    have ha := h₁ a (List.mem_cons_self a l)
    simp only [List.cons_append, List.find?, ha]
    exact ih fun k hk => h₁ k (List.mem_cons_of_mem a hk)

/-- Claim C7: for a text of at least three words, a negative-keyword match
short-circuits detectInterest to not-interested (whatever positive keywords
occur); with no negative match, the first positive keyword, in the fixed
order of the list, that occurs in the lowered trimmed text is returned as
the signal. -/
theorem c7_classifier_order (text : Str)
    (h3 : 3 ≤ jsWordCount (trim (lower text))) :
    (NEGATIVE_KEYWORDS.any (fun neg => includes neg (trim (lower text))) = true →
       detectInterest text = ⟨false, none⟩)
  ∧ (NEGATIVE_KEYWORDS.any (fun neg => includes neg (trim (lower text))) = false →
       ∀ l₁ kw l₂, POSITIVE_INTEREST_KEYWORDS = l₁ ++ kw :: l₂ →
         (∀ k ∈ l₁, includes k (trim (lower text)) = false) →
         includes kw (trim (lower text)) = true →
         detectInterest text = ⟨true, some kw⟩) := by
  constructor
  · intro hneg
    unfold detectInterest
    rw [if_neg (Nat.not_lt.mpr h3), if_pos hneg]
  · intro hneg l₁ kw l₂ hdec hl₁ hkw
    unfold detectInterest
    rw [if_neg (Nat.not_lt.mpr h3), if_neg (by rw [hneg]; exact Bool.false_ne_true),
      hdec, find?_first_match _ l₁ l₂ kw hl₁ hkw]

/-- Claim C7 witness: the two quoted example utterances, the negative one
containing a positive keyword fragment as well. -/
theorem c7_classifier_order_witness :
    detectInterest (toL "não tenho interesse, obrigado") = ⟨false, none⟩
    ∧ detectInterest (toL "quero agendar uma reunião semana que vem")
        = ⟨true, some (toL "agendar")⟩ := by
  constructor
  · exact (c7_classifier_order _ (by decide)).1 (by decide)
  · exact (c7_classifier_order _ (by decide)).2 (by decide) [] (toL "agendar")
      (POSITIVE_INTEREST_KEYWORDS.tail) (by decide) (by intro k hk; cases hk) (by decide)

/-- Claim C8: a text whose lowered trimmed form has fewer than three
whitespace-separated words is never classified. -/
theorem c8_short_utterance (text : Str)
    (h : jsWordCount (trim (lower text)) < 3) :
    detectInterest text = ⟨false, none⟩ := by
  unfold detectInterest
  rw [if_pos h]

/-- Claim C8 witness at the quoted example. -/
theorem c8_short_utterance_witness :
    jsWordCount (trim (lower (toL "ok"))) < 3
    ∧ detectInterest (toL "ok") = ⟨false, none⟩ :=
  ⟨by decide, c8_short_utterance (toL "ok") (by decide)⟩

/-! ### C2: the greeting is requested exactly once -/

theorem greet_step_sent (ue : Bool) (s : V18State) (e : Ev18)
    (h : s.greetingSent = true) :
    (stepV18 ue s e).1.greetingSent = true
    ∧ (stepV18 ue s e).2.countP isGreeting = 0 := by
  cases e <;>
    simp only [stepV18, h] <;>
    (try split) <;>
    (try split) <;>
    (try split) <;>
    simp_all [isGreeting, List.countP_cons]

theorem greet_step_not_su (ue : Bool) (s : V18State) (e : Ev18)
    (h : isSessionUpdated e = false) :
    (stepV18 ue s e).1.greetingSent = s.greetingSent
    ∧ (stepV18 ue s e).2.countP isGreeting = 0 := by
  cases e
  case sessionUpdated => simp [isSessionUpdated] at h
  all_goals
    simp only [stepV18]
    (try split) <;>
      (try split) <;>
      (try split) <;>
      simp_all [isGreeting, List.countP_cons]

theorem greetCount_runFrom (ue : Bool) (evs : List Ev18) : ∀ s : V18State,
    (runFromV18 ue s evs).2.countP isGreeting
      = if s.greetingSent then 0 else min 1 (evs.countP isSessionUpdated) := by
  induction evs with
  | nil =>
    intro s
    simp [runFromV18]
  | cons e evs ih =>
    intro s
    simp only [runFromV18, List.countP_append, List.countP_cons]
    by_cases hg : s.greetingSent = true
    · obtain ⟨h1, h2⟩ := greet_step_sent ue s e hg
      rw [h2, ih, if_pos h1, if_pos hg]
    · have hg' : s.greetingSent = false := Bool.eq_false_iff.mpr hg
      rw [if_neg hg]
      cases he : isSessionUpdated e
      · obtain ⟨h1, h2⟩ := greet_step_not_su ue s e he
        rw [h2, ih, h1, hg']
        simp
      · have hsu : e = Ev18.sessionUpdated := by cases e <;> simp [isSessionUpdated] at he ⊢
        subst hsu
        have hstep : stepV18 ue s Ev18.sessionUpdated
            = ({ s with greetingSent := true }, [Out18.responseCreateGreeting]) := by
          simp [stepV18, hg']
        rw [hstep, ih]
        simp [isGreeting, isSessionUpdated]

/-- Claim C2: over any sequence of backend events, the greeting
response.create is emitted exactly once as soon as one session-updated
acknowledgment has arrived, and never again — the count of emitted greeting
requests is the count of acknowledgments capped at one (applying this to
the prefixes of a trace places the single greeting at the first
acknowledgment). -/
theorem c2_greeting_once (ue : Bool) (evs : List Ev18) :
    (runV18 ue evs).2.countP isGreeting = min 1 (evs.countP isSessionUpdated) := by
  rw [runV18, greetCount_runFrom ue evs initV18]
  rfl

/-! ### C3: the interest notification fires at most once, from the second
utterance on -/

theorem notif_step_sent (ue : Bool) (s : V18State) (e : Ev18)
    (h : s.interestNotified = true) :
    (stepV18 ue s e).1.interestNotified = true
    ∧ (stepV18 ue s e).2.countP isInterestNote = 0 := by
  cases e <;>
    simp only [stepV18, h] <;>
    (try split) <;>
    (try split) <;>
    (try split) <;>
    simp_all [isInterestNote, List.countP_cons]

theorem notif_step_le (ue : Bool) (s : V18State) (e : Ev18) :
    (stepV18 ue s e).2.countP isInterestNote ≤ 1
    ∧ ((stepV18 ue s e).2.countP isInterestNote = 1 →
        (stepV18 ue s e).1.interestNotified = true) := by
  cases e <;>
    simp only [stepV18] <;>
    (try split) <;>
    (try split) <;>
    (try split) <;>
    simp_all [isInterestNote, List.countP_cons]

theorem notifCount_runFrom (ue : Bool) (evs : List Ev18) : ∀ s : V18State,
    (runFromV18 ue s evs).2.countP isInterestNote
      ≤ if s.interestNotified then 0 else 1 := by
  induction evs with
  | nil =>
    intro s
    simp [runFromV18]
  | cons e evs ih =>
    intro s
    simp only [runFromV18, List.countP_append]
    by_cases hn : s.interestNotified = true
    · obtain ⟨h1, h2⟩ := notif_step_sent ue s e hn
      have h3 := ih (stepV18 ue s e).1
      rw [h1, if_pos rfl] at h3
      simp only [if_pos hn]
      omega
    · obtain ⟨h1, h2⟩ := notif_step_le ue s e
      have h3 := ih (stepV18 ue s e).1
      rw [if_neg hn]
      by_cases hc : (stepV18 ue s e).2.countP isInterestNote = 1
      · rw [h2 hc, if_pos rfl] at h3
        omega
      · have h4 : (if (stepV18 ue s e).1.interestNotified = true then 0 else 1) ≤ 1 := by
          split <;> omega
        omega

theorem notif_step_count (ue : Bool) (s : V18State) (e : Ev18) (sig : Option Str)
    (h : Out18.interestNote sig ∈ (stepV18 ue s e).2) :
    2 ≤ (stepV18 ue s e).1.userMessageCount := by
  cases e <;>
    simp only [stepV18] at h ⊢ <;>
    (try split at h) <;>
    (try split at h) <;>
    (try split at h) <;>
    simp_all

/-- Claim C3: in any run, at most one interest notification is ever sent,
and any step that emits one leaves the user-utterance counter at two or
more — the notification only fires for an utterance at which the counter
has reached at least two, and once it has fired later matching utterances
never fire another. -/
theorem c3_interest_once (ue : Bool) (evs : List Ev18) :
    (runV18 ue evs).2.countP isInterestNote ≤ 1
    ∧ ∀ (s : V18State) (e : Ev18) (sig : Option Str),
        Out18.interestNote sig ∈ (stepV18 ue s e).2 →
        2 ≤ (stepV18 ue s e).1.userMessageCount := by
  constructor
  · have h := notifCount_runFrom ue evs initV18
    simpa [runV18, initV18] using h
  · exact fun s e sig h => notif_step_count ue s e sig h

/-- Claim C3 witness: a trace with three matching utterances (the first
below the threshold) produces exactly one notification, and a concrete
emitting step has counter two. -/
theorem c3_interest_once_witness :
    (runV18 true [Ev18.inputTranscribed (toL "quero saber mais detalhes"),
                  Ev18.inputTranscribed (toL "quero saber mais detalhes"),
                  Ev18.inputTranscribed (toL "quanto custa esse plano")]).2.countP
        isInterestNote ≤ 1
    ∧ 2 ≤ (stepV18 true { initV18 with userMessageCount := 1 }
            (Ev18.inputTranscribed (toL "quero saber mais detalhes"))).1.userMessageCount := by
  constructor
  · exact (c3_interest_once true _).1
  · exact (c3_interest_once true []).2 { initV18 with userMessageCount := 1 }
      (Ev18.inputTranscribed (toL "quero saber mais detalhes"))
      (some (toL "quero saber mais")) (by decide)

/-! ### C10: no blank transcript entries -/

theorem transcript_step (ue : Bool) (s : V18State) (e : Ev18)
    (h : ∀ en ∈ s.transcription, trim en.text ≠ []) :
    ∀ en ∈ (stepV18 ue s e).1.transcription, trim en.text ≠ [] := by
  cases e with
  | sessionUpdated => simp only [stepV18]; split <;> exact h
  | responseDone => simp only [stepV18]; split <;> exact h
  | audioDelta d => simp only [stepV18]; split <;> exact h
  | textDelta d => simp only [stepV18]; split <;> exact h
  | textDone =>
    simp only [stepV18]
    split
    · split
      · rename_i hne
        intro en hen
        rcases List.mem_append.mp hen with hold | hnew
        · exact h en hold
        · rcases List.mem_singleton.mp hnew with rfl
          show trim (trim s.fullResponse) ≠ []
          rw [trim_idem]
          simpa [List.isEmpty_iff] using hne
      · exact h
    · exact h
  | audioTranscriptDone t =>
    simp only [stepV18]
    split
    · rename_i hcond
      intro en hen
      rcases List.mem_append.mp hen with hold | hnew
      · exact h en hold
      · rcases List.mem_singleton.mp hnew with rfl
        show trim t ≠ []
        have hne : (trim t).isEmpty = false := by
          cases hb : (trim t).isEmpty
          · rfl
          · rw [hb] at hcond; simp at hcond
        simpa [List.isEmpty_iff] using hne
    · exact h
  | speechStarted => exact h
  | inputTranscribed t =>
    simp only [stepV18]
    split
    · rename_i hcond
      have ht : trim t ≠ [] := by
        simpa [List.isEmpty_iff] using hcond
      have key : ∀ en ∈ s.transcription ++ [Entry.mk Role.user t], trim en.text ≠ [] := by
        intro en hen
        rcases List.mem_append.mp hen with hold | hnew
        · exact h en hold
        · rcases List.mem_singleton.mp hnew with rfl
          exact ht
      split
      · split
        · exact key
        · exact key
      · exact key
    · exact h
  | errorEvent => exact h

theorem transcript_runFrom (ue : Bool) (evs : List Ev18) : ∀ s : V18State,
    (∀ en ∈ s.transcription, trim en.text ≠ []) →
    ∀ en ∈ (runFromV18 ue s evs).1.transcription, trim en.text ≠ [] := by
  induction evs with
  | nil => intro s h; exact h
  | cons e evs ih =>
    intro s h
    exact ih (stepV18 ue s e).1 (transcript_step ue s e h)

/-- Claim C10: every transcript entry recorded in any run has
non-whitespace-only text, and a caller-utterance event with blank transcript
is a complete no-op: no entry, no counter change, no output. -/
theorem c10_no_blank_entries (ue : Bool) (evs : List Ev18) :
    (∀ en ∈ (runV18 ue evs).1.transcription, trim en.text ≠ [])
    ∧ ∀ (s : V18State) (t : Str), trim t = [] →
        stepV18 ue s (Ev18.inputTranscribed t) = (s, []) := by
  constructor
  · exact transcript_runFrom ue evs initV18 (by intro en hen; cases hen)
  · intro s t ht
    simp [stepV18, List.isEmpty_iff, ht]

/-- Claim C10 witness: a concrete utterance yields an entry with non-blank
text, and a whitespace-only utterance leaves the state unchanged. -/
theorem c10_no_blank_entries_witness :
    trim (Entry.mk Role.user (toL "olá bom dia")).text ≠ []
    ∧ stepV18 true { initV18 with userMessageCount := 5 }
        (Ev18.inputTranscribed (toL "   ")) = ({ initV18 with userMessageCount := 5 }, []) := by
  constructor
  · exact (c10_no_blank_entries true [Ev18.inputTranscribed (toL "olá bom dia")]).1
      (Entry.mk Role.user (toL "olá bom dia")) (by decide)
  · exact (c10_no_blank_entries true []).2 { initV18 with userMessageCount := 5 }
      (toL "   ") (by decide)

/-! ### The synthesis-pipeline invariant of the v10 machine (C5, C9) -/

/-- The pipeline invariant: at most one sentence is in flight, the
processing flag holds exactly when one is, the started sentences followed by
the still-queued ones are a subsequence of the enqueued ones (so starts
happen in enqueue order, without duplication), and queued sentences are
never whitespace-only. -/
def InvV10 (s : V10State) : Prop :=
  s.inFlight.length ≤ 1
  ∧ (s.isProcessingSentence = true ↔ s.inFlight ≠ [])
  ∧ List.Sublist (s.started ++ s.sentenceQueue) s.enqueued
  ∧ ∀ q ∈ s.sentenceQueue, trim q ≠ []

theorem inv_tryStart (s : V10State) (h : InvV10 s) : InvV10 (tryStart s) := by
  obtain ⟨h1, h2, h3, h4⟩ := h
  unfold tryStart
  split
  · exact ⟨h1, h2, h3, h4⟩
  · cases hq : s.sentenceQueue with
    | nil => exact ⟨h1, h2, h3, h4⟩
    | cons q qs =>
      refine ⟨by simp, by simp, ?_, ?_⟩
      · rw [List.append_assoc]
        simpa using hq ▸ h3
      · intro x hx
        exact h4 x (hq ▸ List.mem_cons_of_mem q hx)

theorem inv_queueSentence (sent : Str) (s : V10State) (h : InvV10 s) :
    InvV10 (queueSentence sent s) := by
  obtain ⟨h1, h2, h3, h4⟩ := h
  unfold queueSentence
  split
  · rename_i hc
    have htr : trim sent ≠ [] := by
      rcases Bool.and_eq_true .. |>.mp hc with ⟨-, hc2⟩
      simpa [List.isEmpty_iff] using hc2
    apply inv_tryStart
    refine ⟨h1, h2, ?_, ?_⟩
    · rw [← List.append_assoc]
      exact List.Sublist.append h3 (List.Sublist.refl [sent])
    · intro x hx
      rcases List.mem_append.mp hx with hold | hnew
      · exact h4 x hold
      · rcases List.mem_singleton.mp hnew with rfl
        exact htr
  · exact ⟨h1, h2, h3, h4⟩

theorem inv_v10Finish (s : V10State) (h : InvV10 s) : InvV10 (v10Finish s) := by
  obtain ⟨h1, h2, h3, h4⟩ := h
  unfold v10Finish
  split
  · exact inv_tryStart _ ⟨by simp, by simp, h3, h4⟩
  · exact ⟨by simp, by simp, h3, h4⟩

theorem inv_bargeIn (s : V10State) (h : InvV10 s) : InvV10 (bargeIn s) := by
  obtain ⟨h1, h2, h3, h4⟩ := h
  refine ⟨h1, h2, ?_, by intro q hq; cases hq⟩
  show List.Sublist (s.started ++ []) s.enqueued
  rw [List.append_nil]
  exact List.Sublist.trans (List.sublist_append_left s.started s.sentenceQueue) h3

theorem inv_v10TextDelta (d : Str) (s : V10State) (h : InvV10 s) :
    InvV10 (v10TextDelta d s).1 := by
  obtain ⟨h1, h2, h3, h4⟩ := h
  unfold v10TextDelta
  split
  · exact ⟨h1, h2, h3, h4⟩
  · rename_i sent rest heq
    split
    · split
      · obtain ⟨g1, g2, g3, g4⟩ := inv_queueSentence sent
          { s with sentenceBuffer := rest,
                   pendingTextResponse := s.pendingTextResponse ++ d }
          ⟨h1, h2, h3, h4⟩
        exact ⟨g1, g2, g3, g4⟩
      · exact inv_queueSentence sent
          { s with sentenceBuffer := rest,
                   pendingTextResponse := s.pendingTextResponse ++ d }
          ⟨h1, h2, h3, h4⟩
    · exact ⟨h1, h2, h3, h4⟩

theorem inv_v10TextDone (s : V10State) (h : InvV10 s) : InvV10 (v10TextDone s) := by
  obtain ⟨g1, g2, g3, g4⟩ : InvV10 (flushBuffer s) := by
    unfold flushBuffer
    split
    · exact inv_queueSentence _ _ h
    · exact h
  unfold v10TextDone flushPending
  split
  · exact ⟨g1, g2, g3, g4⟩
  · exact ⟨g1, g2, g3, g4⟩

theorem inv_stepV10 (ue : Bool) (s : V10State) (e : Ev10) (h : InvV10 s) :
    InvV10 (stepV10 ue s e).1 := by
  obtain ⟨h1, h2, h3, h4⟩ := h
  cases e with
  | audioDelta d =>
    simp only [stepV10]
    split
    · exact ⟨h1, h2, h3, h4⟩
    · exact ⟨h1, h2, h3, h4⟩
  | textDelta d =>
    simp only [stepV10]
    split
    · exact inv_v10TextDelta d s ⟨h1, h2, h3, h4⟩
    · exact ⟨h1, h2, h3, h4⟩
  | textDone =>
    simp only [stepV10]
    split
    · exact inv_v10TextDone s ⟨h1, h2, h3, h4⟩
    · exact ⟨h1, h2, h3, h4⟩
  | speechStarted =>
    simp only [stepV10]
    split
    · exact inv_bargeIn _ ⟨h1, h2, h3, h4⟩
    · exact ⟨h1, h2, h3, h4⟩
  | speechStopped => exact ⟨h1, h2, h3, h4⟩
  | audioDone =>
    simp only [stepV10]
    split
    · exact ⟨h1, h2, h3, h4⟩
    · exact ⟨h1, h2, h3, h4⟩
  | responseDone => exact ⟨h1, h2, h3, h4⟩
  | responseCreated =>
    simp only [stepV10]
    split
    · exact ⟨h1, h2, h3, h4⟩
    · exact ⟨h1, h2, h3, h4⟩
  | inputTranscribed t =>
    simp only [stepV10]
    split
    · exact ⟨h1, h2, h3, h4⟩
    · exact ⟨h1, h2, h3, h4⟩
  | aiTranscriptDone t =>
    simp only [stepV10]
    split
    · exact ⟨h1, h2, h3, h4⟩
    · exact ⟨h1, h2, h3, h4⟩
  | ttsFinished ok chunks =>
    simp only [stepV10]
    split
    · exact inv_v10Finish s ⟨h1, h2, h3, h4⟩
    · exact ⟨h1, h2, h3, h4⟩

theorem inv_runFromV10 (ue : Bool) (evs : List Ev10) : ∀ s : V10State,
    InvV10 s → InvV10 (runFromV10 ue s evs).1 := by
  induction evs with
  | nil => intro s h; exact h
  | cons e evs ih =>
    intro s h
    exact ih (stepV10 ue s e).1 (inv_stepV10 ue s e h)

theorem inv_runV10 (ue : Bool) (evs : List Ev10) : InvV10 (runV10 ue evs).1 := by
  apply inv_runFromV10
  exact ⟨by simp [initV10], by simp [initV10], by simp [initV10],
    by intro q hq; cases hq⟩

/-- Claim C5: in every reachable state of the v10 pipeline, at most one
sentence is in flight (and the processing flag holds exactly when one is),
and the sentences whose synthesis was started form, in order, a subsequence
of the sentences enqueued — synthesis is strictly sequential and respects
enqueue order, with no concurrent synthesis for the same call. -/
theorem c5_sequential_pipeline (ue : Bool) (evs : List Ev10) :
    (runV10 ue evs).1.inFlight.length ≤ 1
    ∧ ((runV10 ue evs).1.isProcessingSentence = true ↔ (runV10 ue evs).1.inFlight ≠ [])
    ∧ List.Sublist (runV10 ue evs).1.started (runV10 ue evs).1.enqueued := by
  obtain ⟨h1, h2, h3, h4⟩ := inv_runV10 ue evs
  exact ⟨h1, h2, List.Sublist.trans
    (List.sublist_append_left (runV10 ue evs).1.started (runV10 ue evs).1.sentenceQueue) h3⟩

/-! ### C9: a synthesis failure skips one sentence only -/

/-- Claim C9: a provider HTTP failure for one sentence leaves the consumer
in exactly the state a success would (the sentence is dropped, not retried,
and the call machine keeps running), emits no audio for the failed sentence,
makes the consumer continue with the next queued sentence, and over any run
no sentence is ever synthesized more often than it was enqueued. -/
theorem c9_failure_skips_sentence (ue : Bool) :
    (∀ (s : V10State) (ok : Bool) (chunks : List Str),
       (stepV10 ue s (Ev10.ttsFinished ok chunks)).1
         = (stepV10 ue s (Ev10.ttsFinished true chunks)).1)
    ∧ (∀ (s : V10State) (chunks : List Str),
       (stepV10 ue s (Ev10.ttsFinished false chunks)).2 = [])
    ∧ (∀ (s : V10State) (chunks : List Str) (q : Str) (qs : List Str),
       s.isProcessingSentence = true → s.sentenceQueue = q :: qs →
       (stepV10 ue s (Ev10.ttsFinished false chunks)).1.started = s.started ++ [q]
       ∧ (stepV10 ue s (Ev10.ttsFinished false chunks)).1.isProcessingSentence = true
       ∧ (stepV10 ue s (Ev10.ttsFinished false chunks)).1.sentenceQueue = qs)
    ∧ (∀ (evs : List Ev10) (sent : Str),
       List.count sent (runV10 ue evs).1.started
         ≤ List.count sent (runV10 ue evs).1.enqueued) := by
  refine ⟨?_, ?_, ?_, ?_⟩
  · intro s ok chunks
    simp only [stepV10]
    split <;> rfl
  · intro s chunks
    simp only [stepV10]
    split <;> rfl
  · intro s chunks q qs hp hq
    simp only [stepV10, if_pos hp, v10Finish, hq]
    simp [tryStart, hq]
  · intro evs sent
    obtain ⟨-, -, h3, -⟩ := inv_runV10 ue evs
    exact List.Sublist.count_le
      (List.Sublist.trans
        (List.sublist_append_left (runV10 ue evs).1.started (runV10 ue evs).1.sentenceQueue)
        h3) sent

/-- A concrete mid-synthesis state: one sentence in flight, one queued. -/
def busyState : V10State :=
  { initV10 with isProcessingSentence := true, inFlight := [toL "Olá."],
                 sentenceQueue := [toL "Tudo bem."] }

/-- Claim C9 witness: a concrete processing state with one queued sentence;
the failed synthesis emits nothing and the next sentence is started. -/
theorem c9_failure_skips_sentence_witness :
    ((stepV10 true busyState (Ev10.ttsFinished false [toL "x"])).2 = [])
    ∧ (stepV10 true busyState (Ev10.ttsFinished false [toL "x"])).1.started
        = [] ++ [toL "Tudo bem."] := by
  constructor
  · exact (c9_failure_skips_sentence true).2.1 busyState [toL "x"]
  · exact ((c9_failure_skips_sentence true).2.2.1 busyState [toL "x"] (toL "Tudo bem.") []
      rfl rfl).1

/-! ### C1: barge-in while the AI is speaking -/

theorem runFromV10_append (ue : Bool) (l₁ l₂ : List Ev10) : ∀ s : V10State,
    runFromV10 ue s (l₁ ++ l₂)
      = ((runFromV10 ue (runFromV10 ue s l₁).1 l₂).1,
         (runFromV10 ue s l₁).2 ++ (runFromV10 ue (runFromV10 ue s l₁).1 l₂).2) := by
  induction l₁ with
  | nil => intro s; simp [runFromV10]
  | cons e l₁ ih =>
    intro s
    simp only [List.cons_append, runFromV10, List.append_eq,
      ih (stepV10 ue s e).1, List.append_assoc]

/-- Claim C1: if a caller-speech-started event arrives while the AI is
speaking, that very step requests cancellation of the current response,
empties the sentence queue, and sends the clear signal to the telephony
side — the step emits exactly the cancel and clear messages and nothing
else, so every audio frame of the rest of the trace comes after them, and
the continuation runs from a state whose sentence queue is empty. -/
theorem c1_barge_in (ue : Bool) (evs₁ evs₂ : List Ev10)
    (h : (runV10 ue evs₁).1.isAISpeaking = true) :
    (runV10 ue (evs₁ ++ Ev10.speechStarted :: evs₂)).2
      = (runV10 ue evs₁).2
        ++ Out10.responseCancel :: Out10.clearTwilio ::
           (runFromV10 ue (bargeIn (speechFlags (runV10 ue evs₁).1)) evs₂).2
    ∧ (bargeIn (speechFlags (runV10 ue evs₁).1)).sentenceQueue = [] := by
  constructor
  · simp only [runV10]
    rw [runFromV10_append]
    have hstep : stepV10 ue (runFromV10 ue initV10 evs₁).1 Ev10.speechStarted
        = (bargeIn (speechFlags (runFromV10 ue initV10 evs₁).1),
           [Out10.responseCancel, Out10.clearTwilio]) := by
      simp only [stepV10]
      rw [if_pos]
      show (speechFlags (runFromV10 ue initV10 evs₁).1).isAISpeaking = true
      exact h
    conv_lhs => rw [runFromV10, hstep]
    rfl
  · rfl

/-- Claim C1 witness: after one text delta the AI is speaking (a sentence
synthesis is in flight); the speech-started step emits cancel then clear,
before the in-flight audio that is delivered at the later completion. -/
theorem c1_barge_in_witness :
    (runV10 true [Ev10.textDelta (toL "Oi tudo bem.")]).1.isAISpeaking = true
    ∧ ((runV10 true ([Ev10.textDelta (toL "Oi tudo bem.")]
          ++ Ev10.speechStarted :: [Ev10.ttsFinished true [toL "x"]])).2
        = (runV10 true [Ev10.textDelta (toL "Oi tudo bem.")]).2
          ++ Out10.responseCancel :: Out10.clearTwilio ::
             (runFromV10 true
               (bargeIn (speechFlags (runV10 true [Ev10.textDelta (toL "Oi tudo bem.")]).1))
               [Ev10.ttsFinished true [toL "x"]]).2
       ∧ (bargeIn (speechFlags
            (runV10 true [Ev10.textDelta (toL "Oi tudo bem.")]).1)).sentenceQueue = []) :=
  ⟨by decide, c1_barge_in true [Ev10.textDelta (toL "Oi tudo bem.")]
      [Ev10.ttsFinished true [toL "x"]] (by decide)⟩

/-! ### C6: unsolicited auto-responses are cancelled (v11) -/

/-- Claim C6: a response-created event arriving while the machine is
waiting for the caller, the caller has not spoken since the last AI turn,
and at least one turn has completed, is cancelled immediately: the step
sends exactly a cancel request to the backend and changes nothing. -/
theorem c6_block_auto_response (ue : Bool) (s : V11State)
    (h₁ : s.waitingForUserResponse = true) (h₂ : s.userHasSpoken = false)
    (h₃ : 0 < s.turnCount) :
    stepV11 ue s Ev10.responseCreated = (s, [Out10.responseCancel]) := by
  simp [stepV11, h₁, h₂, h₃]

/-- Claim C6 witness at a concrete waiting state with one completed turn. -/
theorem c6_block_auto_response_witness :
    stepV11 true { initV11 with waitingForUserResponse := true, turnCount := 1 }
        Ev10.responseCreated
      = ({ initV11 with waitingForUserResponse := true, turnCount := 1 },
         [Out10.responseCancel]) :=
  c6_block_auto_response true _ rfl rfl (by decide)

end RS
